import Mathlib

/-!
# Verification of the Angelax HTTP protocol core

A shallow embedding, in Lean 4, of the protocol core of the Angelax HTTP
server (crate `angelax-core`): the byte-scanning primitives
(`utils/simd.rs`), the HTTP/1.1 parser (`server/http1.rs`), the keep-alive
decision of the connection state machine (`server/connection.rs`), the
HPACK integer decoder and dynamic table (`server/http2.rs`), the flow
controller (`server/mod.rs`), and the atomic bitmap and object/buffer
pools (`utils/atomic.rs`, `utils/pool.rs`).

Bytes are modelled as `Nat` values below 256, byte strings as `List Nat`,
machine integers as `Nat`/`Int` with explicit bounds where overflow or
signedness matters.  Every definition follows the corresponding Rust
function; deviations forced by the embedding (fuel for loops whose
termination is not structural, sequential semantics for atomics) are
noted in comments at the definition.
-/

namespace Angelax

/-! ## Byte-level utilities shared by the parsers -/

/-- ASCII lower-casing of one byte (`u8::to_ascii_lowercase`): maps
`A`–`Z` to `a`–`z`, leaves every other byte unchanged. -/
def asciiLower (b : Nat) : Nat :=
  if 65 ≤ b ∧ b ≤ 90 then b + 32 else b

/-- `str::eq_ignore_ascii_case` on byte strings: equal length and equal
bytes after ASCII lower-casing. -/
def eqIgnoreAsciiCase (a b : List Nat) : Bool :=
  a.map asciiLower == b.map asciiLower

/-- `str::to_lowercase`, restricted to the ASCII mapping.  (The Rust
function is Unicode-aware; on the ASCII inputs that appear in every
statement below the two coincide byte for byte.) -/
def toLowerBytes (s : List Nat) : List Nat :=
  s.map asciiLower

/-- `str::contains(needle)`: some contiguous substring equals `needle`.
An empty needle is contained in every string, as in Rust. -/
def containsSub (needle : List Nat) : List Nat → Bool
  | [] => needle.isEmpty
  | b :: rest => needle.isPrefixOf (b :: rest) || containsSub needle rest

/-- The HTTP token characters of RFC 7230: `A`–`Z`, `a`–`z`, `0`–`9` and
`! # $ % & ' * + - . ^ _ \x60 | ~`  (the scalar `matches!` arm of
`SimdTokenValidator::is_valid_token`). -/
def isTokenByte (b : Nat) : Bool :=
  (65 ≤ b && b ≤ 90) || (97 ≤ b && b ≤ 122) || (48 ≤ b && b ≤ 57) ||
  b == 33 || b == 35 || b == 36 || b == 37 || b == 38 || b == 39 ||
  b == 42 || b == 43 || b == 45 || b == 46 || b == 94 || b == 95 ||
  b == 96 || b == 124 || b == 126

/-- `SimdDelimiterFinder::find_in`: index of the first occurrence of the
delimiter byte.  The AVX2, SSE2 and scalar paths of the source all return
the first matching position, so one definition captures all of them. -/
def findByte (d : Nat) : List Nat → Option Nat
  | [] => none
  | b :: rest =>
    if b == d then some 0 else (findByte d rest).map (· + 1)

/-- `SimdCrlfFinder::find_crlf`: index of the first `\r` that is
immediately followed by `\n`; the trailing `\n` must lie inside the
input.  Both the AVX2 path (which checks `pos + 1 < len` explicitly) and
the scalar `windows(2)` fallback compute exactly this. -/
def findCrlf : List Nat → Option Nat
  | 13 :: 10 :: _ => some 0
  | _ :: rest => (findCrlf rest).map (· + 1)
  | [] => none

/-- `SimdWhitespaceSkipper::skip_whitespace`: drop leading spaces and
tabs; all-whitespace input yields the empty slice. -/
def skipWhitespaceBytes : List Nat → List Nat
  | [] => []
  | b :: rest => if b == 32 || b == 9 then skipWhitespaceBytes rest else b :: rest

/-- The trailing-whitespace trim of `Http1Parser::parse_header`:
`rposition(|b| b != ' ' && b != '\t').map(|p| p + 1).unwrap_or(0)`
taken as a prefix, i.e. drop trailing spaces and tabs. -/
def trimTrailingWs (l : List Nat) : List Nat :=
  (l.reverse.dropWhile (fun b => b == 32 || b == 9)).reverse

/-! ### UTF-8 validation (`str::from_utf8`)

The byte-level acceptance condition of Rust's UTF-8 validator: ASCII,
well-formed continuation bytes, no overlong form, no surrogate, nothing
above `U+10FFFF`. -/

/-- A UTF-8 continuation byte: `0x80`–`0xBF`. -/
def isUtf8Cont (b : Nat) : Bool := 128 ≤ b && b ≤ 191

/-- UTF-8 validity of a byte string, as checked by `str::from_utf8`. -/
def validUtf8 : List Nat → Bool
  | [] => true
  | b :: rest =>
    if b ≤ 127 then validUtf8 rest
    else if 194 ≤ b && b ≤ 223 then
      match rest with
      | c1 :: r => isUtf8Cont c1 && validUtf8 r
      | [] => false
    else if b == 224 then
      match rest with
      | c1 :: c2 :: r => (160 ≤ c1 && c1 ≤ 191) && isUtf8Cont c2 && validUtf8 r
      | _ => false
    else if (225 ≤ b && b ≤ 236) || b == 238 || b == 239 then
      match rest with
      | c1 :: c2 :: r => isUtf8Cont c1 && isUtf8Cont c2 && validUtf8 r
      | _ => false
    else if b == 237 then
      match rest with
      | c1 :: c2 :: r => (128 ≤ c1 && c1 ≤ 159) && isUtf8Cont c2 && validUtf8 r
      | _ => false
    else if b == 240 then
      match rest with
      | c1 :: c2 :: c3 :: r =>
        (144 ≤ c1 && c1 ≤ 191) && isUtf8Cont c2 && isUtf8Cont c3 && validUtf8 r
      | _ => false
    else if 241 ≤ b && b ≤ 243 then
      match rest with
      | c1 :: c2 :: c3 :: r =>
        isUtf8Cont c1 && isUtf8Cont c2 && isUtf8Cont c3 && validUtf8 r
      | _ => false
    else if b == 244 then
      match rest with
      | c1 :: c2 :: c3 :: r =>
        (128 ≤ c1 && c1 ≤ 143) && isUtf8Cont c2 && isUtf8Cont c3 && validUtf8 r
      | _ => false
    else false

/-! ### Decimal and hexadecimal integer parsing

`str::parse::<usize>` and `usize::from_str_radix(_, 16)` on a 64-bit
target: an optional leading `+`, then one or more digits, rejecting
overflow past `2^64 - 1`. -/

/-- Value of one decimal digit byte, if it is one. -/
def decDigit (b : Nat) : Option Nat :=
  if 48 ≤ b && b ≤ 57 then some (b - 48) else none

/-- Value of one hexadecimal digit byte, if it is one. -/
def hexDigit (b : Nat) : Option Nat :=
  if 48 ≤ b && b ≤ 57 then some (b - 48)
  else if 97 ≤ b && b ≤ 102 then some (b - 87)
  else if 65 ≤ b && b ≤ 70 then some (b - 55)
  else none

/-- Fold a digit list in base `radix`, failing on a non-digit. -/
def foldDigits (digit : Nat → Option Nat) (radix : Nat) : List Nat → Nat → Option Nat
  | [], acc => some acc
  | b :: rest, acc =>
    match digit b with
    | some d => foldDigits digit radix rest (acc * radix + d)
    | none => none

/-- `str::parse::<usize>` (64-bit `usize`): optional `+`, at least one
decimal digit, no overflow. -/
def parseUsizeDec (s : List Nat) : Option Nat :=
  let ds := match s with
    | 43 :: rest => rest
    | _ => s
  if ds.isEmpty then none
  else match foldDigits decDigit 10 ds 0 with
    | some n => if n < 2 ^ 64 then some n else none
    | none => none

/-- `usize::from_str_radix(s, 16)` (64-bit `usize`): optional `+`, at
least one hex digit, no overflow. -/
def parseUsizeHex (s : List Nat) : Option Nat :=
  let ds := match s with
    | 43 :: rest => rest
    | _ => s
  if ds.isEmpty then none
  else match foldDigits hexDigit 16 ds 0 with
    | some n => if n < 2 ^ 64 then some n else none
    | none => none

/-- `str::trim`, restricted to the ASCII whitespace bytes that can occur
in a chunk-size line (space, tab, CR, LF); Rust trims full Unicode
whitespace, which agrees on these inputs. -/
def trimAsciiWs (l : List Nat) : List Nat :=
  let isWs := fun b => b == 32 || b == 9 || b == 13 || b == 10
  ((l.dropWhile isWs).reverse.dropWhile isWs).reverse

/-! ## `utils/simd.rs`: the token validator, both implementations

`SimdTokenValidator::is_valid_token` has two bodies selected by
`cfg(target_feature = "avx2")`.  The scalar body checks the exact token
character set.  The AVX2 body processes full 32-byte blocks with a
signed-byte range comparison that only verifies `0x21 ≤ b ≤ 0x7E`
(bytes `≥ 0x80` are negative as `i8` and fail the comparison), with the
separator check left as a `TODO`; the tail after the last full block is
checked with the exact scalar predicate. -/

/-- Scalar `is_valid_token`: non-empty and every byte a token byte. -/
def isValidTokenScalar (input : List Nat) : Bool :=
  !input.isEmpty && input.all isTokenByte

/-- The per-byte test actually performed by the AVX2 block loop: the
byte, read as a signed `i8`, lies strictly above `0x20` and strictly
below `0x7F`.  For a byte value `b < 256` this is `0x21 ≤ b ≤ 0x7E`. -/
def avxInRange (b : Nat) : Bool :=
  33 ≤ b && b ≤ 126

/-- The AVX2 main loop of `is_valid_token`: while at least 32 bytes
remain, test one 32-byte block with `avxInRange` only; the remaining
tail is checked with the exact token predicate.  `fuel` stands in for
the `while`; each iteration drops 32 bytes, so `l.length` units (as
supplied by `isValidTokenAvx`) are never exhausted. -/
def avxTokenLoop : Nat → List Nat → Bool
  | 0, l => l.all isTokenByte
  | fuel + 1, l =>
    if 32 ≤ l.length then
      (l.take 32).all avxInRange && avxTokenLoop fuel (l.drop 32)
    else
      l.all isTokenByte

/-- AVX2 `is_valid_token`: empty input is invalid, otherwise run the
block loop. -/
def isValidTokenAvx (input : List Nat) : Bool :=
  if input.isEmpty then false else avxTokenLoop input.length input

/-- Byte string of an ASCII Lean string literal (each character's code
point is its byte). -/
def asciiBytes (s : String) : List Nat :=
  s.data.map Char.toNat

/-! ## `server/http1.rs`: the HTTP/1.1 request parser -/

/-- `Http1ParseError`. -/
inductive Http1ParseError where
  | invalidMethod
  | invalidUri
  | invalidVersion
  | invalidHeader
  | invalidHeaderName
  | invalidHeaderValue
  | invalidChunkSize
  | invalidContentLength
  | tooManyHeaders
  | requestTooLarge
  | incompleteRequest
  | malformedRequest
deriving DecidableEq, Repr

/-- `Method`. -/
inductive Method where
  | get | head | post | put | delete | connect | options | trace | patch
deriving DecidableEq, Repr

/-- `Method::from_bytes`.  The source dispatches on the length first and
then compares the bytes; the chain of equality tests below accepts and
rejects exactly the same byte strings. -/
def methodFromBytes (b : List Nat) : Except Http1ParseError Method :=
  if b == asciiBytes "GET" then .ok .get
  else if b == asciiBytes "PUT" then .ok .put
  else if b == asciiBytes "HEAD" then .ok .head
  else if b == asciiBytes "POST" then .ok .post
  else if b == asciiBytes "PATCH" then .ok .patch
  else if b == asciiBytes "TRACE" then .ok .trace
  else if b == asciiBytes "DELETE" then .ok .delete
  else if b == asciiBytes "CONNECT" then .ok .connect
  else if b == asciiBytes "OPTIONS" then .ok .options
  else .error .invalidMethod

/-- `Version { major, minor }`. -/
structure Version where
  major : Nat
  minor : Nat
deriving DecidableEq, Repr

/-- `Header`: name and value as byte strings (the source stores `&str`
views whose UTF-8 validity the parser has checked). -/
structure Header where
  name : List Nat
  value : List Nat
deriving DecidableEq, Repr

/-- `Request`. -/
structure Request where
  method : Method
  uri : List Nat
  version : Version
  headers : List Header
  body : Option (List Nat)
deriving DecidableEq, Repr

/-- The configurable limits of `Http1Parser` (the delimiter finders
carry no state beyond their byte and are embedded as the functions
above). -/
structure Http1Parser where
  maxHeaders : Nat
  maxHeaderSize : Nat
  maxRequestSize : Nat
deriving DecidableEq, Repr

/-- `Http1Parser::new()`: 100 headers, 8 KiB header size, and a
1 MiB (`1024 * 1024`) maximum request size. -/
def http1ParserNew : Http1Parser :=
  { maxHeaders := 100, maxHeaderSize := 8192, maxRequestSize := 1024 * 1024 }

/-- `Http1Parser::parse_version`: at least 8 bytes, `HTTP/`, a major
digit in {0,1,2,3}, a dot, a minor digit in {0,1,9}. -/
def parseVersion (input : List Nat) : Except Http1ParseError Version := do
  if input.length < 8 || input.take 5 != asciiBytes "HTTP/" then
    throw .invalidVersion
  let major ← match input.getD 5 0 with
    | 48 => pure 0
    | 49 => pure 1
    | 50 => pure 2
    | 51 => pure 3
    | _ => throw .invalidVersion
  if input.getD 6 0 != 46 then
    throw .invalidVersion
  let minor ← match input.getD 7 0 with
    | 48 => pure 0
    | 49 => pure 1
    | 57 => pure 9
    | _ => throw .invalidVersion
  return ⟨major, minor⟩

/-- `Http1Parser::parse_request_line`: split the first CRLF-terminated
line on its first two spaces into method, URI (UTF-8 checked) and
version; returns the parsed triple and `line_end + 2`. -/
def parseRequestLine (input : List Nat) :
    Except Http1ParseError (Method × List Nat × Version × Nat) := do
  let lineEnd ← match findCrlf input with
    | some e => pure e
    | none => throw .incompleteRequest
  let line := input.take lineEnd
  let methodEnd ← match findByte 32 line with
    | some e => pure e
    | none => throw .malformedRequest
  let method ← methodFromBytes (line.take methodEnd)
  let uriStart := methodEnd + 1
  let uriEndRel ← match findByte 32 (line.drop uriStart) with
    | some e => pure e
    | none => throw .malformedRequest
  let uriEnd := uriStart + uriEndRel
  let uriBytes := (line.drop uriStart).take uriEndRel
  if !validUtf8 uriBytes then
    throw .invalidUri
  let version ← parseVersion (line.drop (uriEnd + 1))
  return (method, uriBytes, version, lineEnd + 2)

/-- `Http1Parser::parse_header`: split one header line on its first
colon; the name must be a valid token, the value is taken after the
colon with leading and trailing spaces/tabs stripped.  (The source calls
`SimdTokenValidator::is_valid_token`; the scalar body is used here, and
every header name in the statements below is shorter than one 32-byte
vector, where the two bodies agree.) -/
def parseHeader (line : List Nat) : Except Http1ParseError Header := do
  let colonPos ← match findByte 58 line with
    | some p => pure p
    | none => throw .invalidHeader
  let nameBytes := line.take colonPos
  if !isValidTokenScalar nameBytes then
    throw .invalidHeaderName
  if !validUtf8 nameBytes then
    throw .invalidHeaderName
  let afterColon := skipWhitespaceBytes (line.drop (colonPos + 1))
  let value := trimTrailingWs afterColon
  if !validUtf8 value then
    throw .invalidHeaderValue
  return ⟨nameBytes, value⟩

/-- The header loop of `Http1Parser::parse_headers`.  `fuel` stands in
for the source's unbounded `loop`; every iteration advances `offset` by
at least two bytes, so `input.length + 1` units of fuel are never
exhausted (the fuel-out branch repeats the loop's own incomplete-input
error). -/
def parseHeadersLoop (p : Http1Parser) (input : List Nat) :
    Nat → Nat → List Header → Except Http1ParseError (List Header × Nat)
  | 0, _, _ => throw .incompleteRequest
  | fuel + 1, offset, acc => do
    if offset ≥ input.length then
      throw .incompleteRequest
    if (input.drop offset).take 2 == [13, 10] then
      return (acc, offset + 2)
    let lineEnd ← match findCrlf (input.drop offset) with
      | some e => pure e
      | none => throw .incompleteRequest
    let header ← parseHeader ((input.drop offset).take lineEnd)
    let acc := acc ++ [header]
    if acc.length > p.maxHeaders then
      throw .tooManyHeaders
    parseHeadersLoop p input fuel (offset + lineEnd + 2) acc

/-- `Http1Parser::parse_headers`. -/
def parseHeaders (p : Http1Parser) (input : List Nat) :
    Except Http1ParseError (List Header × Nat) :=
  parseHeadersLoop p input (input.length + 1) 0 []

/-- `Http1Parser::parse_chunk_size`: the part of the line before the
first `;`, trimmed, read as hexadecimal. -/
def parseChunkSize (s : List Nat) : Except Http1ParseError Nat :=
  let sizePart := trimAsciiWs (s.takeWhile (· != 59))
  match parseUsizeHex sizePart with
  | some n => .ok n
  | none => .error .invalidChunkSize

/-- `Http1Parser::skip_trailer_headers`, with fuel for the source's
`loop` (each iteration advances by at least two bytes). -/
def skipTrailerHeaders (input : List Nat) :
    Nat → Nat → Except Http1ParseError Nat
  | 0, _ => throw .incompleteRequest
  | fuel + 1, offset => do
    if offset + 2 > input.length then
      throw .incompleteRequest
    if (input.drop offset).take 2 == [13, 10] then
      return offset + 2
    let lineEnd ← match findCrlf (input.drop offset) with
      | some e => pure e
      | none => throw .incompleteRequest
    skipTrailerHeaders input fuel (offset + lineEnd + 2)

/-- The first (validation) pass of `extract_chunked_body`: walk the
chunk framing, checking sizes and accumulating the total payload size.
The source's `loop` is given fuel as above. -/
def chunkFirstPass (p : Http1Parser) (input : List Nat) :
    Nat → Nat → Nat → Except Http1ParseError Unit
  | 0, _, _ => throw .incompleteRequest
  | fuel + 1, offset, total => do
    if offset ≥ input.length then
      throw .incompleteRequest
    let lineEnd ← match findCrlf (input.drop offset) with
      | some e => pure e
      | none => throw .incompleteRequest
    let sizeLine := (input.drop offset).take lineEnd
    if !validUtf8 sizeLine then
      throw .invalidChunkSize
    let chunkSize ← parseChunkSize sizeLine
    let offset := offset + lineEnd + 2
    if chunkSize == 0 then
      let _ ← skipTrailerHeaders (input.drop offset) (input.length + 1) 0
      return ()
    else
      if offset + chunkSize + 2 > input.length then
        throw .incompleteRequest
      let total := total + chunkSize
      if total > p.maxRequestSize then
        throw .requestTooLarge
      chunkFirstPass p input fuel (offset + chunkSize + 2) total

/-- The second (collection) pass of `extract_chunked_body`: concatenate
the chunk payloads.  The source `unwrap`s here because the first pass
has already validated the framing; the impossible failure branches
below return the bytes accumulated so far. -/
def chunkCollect (input : List Nat) : Nat → Nat → List Nat → List Nat
  | 0, _, acc => acc
  | fuel + 1, offset, acc =>
    match findCrlf (input.drop offset) with
    | none => acc
    | some lineEnd =>
      match parseChunkSize ((input.drop offset).take lineEnd) with
      | .error _ => acc
      | .ok chunkSize =>
        let offset := offset + lineEnd + 2
        if chunkSize == 0 then acc
        else
          chunkCollect input fuel (offset + chunkSize + 2)
            (acc ++ (input.drop offset).take chunkSize)

/-- `Http1Parser::extract_chunked_body`: validate the framing, then
return the concatenated chunk payloads (the source leaks the `Vec` to
return a slice; the value is the same byte string). -/
def extractChunkedBody (p : Http1Parser) (input : List Nat) :
    Except Http1ParseError (Option (List Nat)) := do
  let _ ← chunkFirstPass p input (input.length + 1) 0 0
  return some (chunkCollect input (input.length + 1) 0 [])

/-- The `Content-Length` scan of `extract_body`: the first header whose
name matches case-insensitively decides; later duplicates are
ignored. -/
def contentLengthLoop (p : Http1Parser) (remaining : List Nat) :
    List Header → Except Http1ParseError (Option (List Nat))
  | [] => .ok none
  | h :: rest =>
    if eqIgnoreAsciiCase h.name (asciiBytes "content-length") then
      match parseUsizeDec h.value with
      | none => .error .invalidContentLength
      | some length =>
        if length > p.maxRequestSize then .error .requestTooLarge
        else if remaining.length < length then .error .incompleteRequest
        else .ok (some (remaining.take length))
    else contentLengthLoop p remaining rest

/-- `Http1Parser::extract_body`: chunked if any `Transfer-Encoding`
header's lower-cased value contains `chunked`, else by the first
`Content-Length` header, else no body. -/
def extractBody (p : Http1Parser) (headers : List Header)
    (remaining : List Nat) : Except Http1ParseError (Option (List Nat)) :=
  let isChunked := headers.any fun h =>
    eqIgnoreAsciiCase h.name (asciiBytes "transfer-encoding") &&
    containsSub (asciiBytes "chunked") (toLowerBytes h.value)
  if isChunked then extractChunkedBody p remaining
  else contentLengthLoop p remaining headers

/-- `Http1Parser::parse_request`: request line, headers, body; the
returned count is the running `offset`, which the source advances by
`body.len()` when a body is present. -/
def parseRequest (p : Http1Parser) (input : List Nat) :
    Except Http1ParseError (Request × Nat) := do
  if input.isEmpty then
    throw .incompleteRequest
  let (method, uri, version, lineEnd) ← parseRequestLine input
  let offset := lineEnd
  let (headers, headersEnd) ← parseHeaders p (input.drop offset)
  let offset := offset + headersEnd
  let body ← extractBody p headers (input.drop offset)
  let offset := offset + (match body with | some b => b.length | none => 0)
  return (⟨method, uri, version, headers, body⟩, offset)

/-! ## `server/connection.rs`: the keep-alive decision

After a successful parse, `Connection::process_http1` assigns
`state.keep_alive` from the request's headers alone (the HTTP version is
not consulted). -/

/-- The keep-alive flag computed by `Connection::process_http1` for the
request it just parsed: true exactly when some header has name
`connection` and value `keep-alive`, case-insensitively. -/
def keepAliveAfter (req : Request) : Bool :=
  req.headers.any fun h =>
    eqIgnoreAsciiCase h.name (asciiBytes "connection") &&
    eqIgnoreAsciiCase h.value (asciiBytes "keep-alive")

/-! ## `server/http2.rs`: HPACK integer coding and the dynamic table -/

/-- The `Http2ParseError` cases reached by the functions embedded
here. -/
inductive Http2ParseError where
  | invalidHeaderBlock
  | compressionError
  | invalidSettings
deriving DecidableEq, Repr

/-- The continuation-byte `while` of `HpackDecoder::decode_integer`,
walking the bytes after the prefix byte.  `u32` addition and shifting
wrap modulo `2^32` (release-mode semantics); the shift amount is at most
28 because the `m > 28` test fails the sixth continuation byte. -/
def decodeIntegerLoop : List Nat → Nat → Nat → Except Http2ParseError Nat
  | [], _, _ => .error .invalidHeaderBlock
  | b :: rest, value, m =>
    let value := (value + (b % 128) * 2 ^ m) % 2 ^ 32
    if b < 128 then .ok value
    else if m + 7 > 28 then .error .invalidHeaderBlock
    else decodeIntegerLoop rest value (m + 7)

/-- `HpackDecoder::decode_integer` with an `N`-bit prefix: the masked
prefix if it is below `2^N - 1`, otherwise the prefix plus the
little-endian base-128 continuation value.  (`byte & ((1 << N) - 1)` is
written as `% 2^N`.) -/
def decodeInteger (input : List Nat) (prefixBits : Nat) :
    Except Http2ParseError Nat :=
  match input with
  | [] => .error .invalidHeaderBlock
  | b :: rest =>
    let mask := 2 ^ prefixBits - 1
    let value := b % 2 ^ prefixBits
    if value < mask then .ok value
    else decodeIntegerLoop rest value 0

/-- The `while remaining >= 128` of `HpackDecoder::integer_size`
(`remaining >>= 7` written as division by 128).  `fuel` stands in for
the `while`; a `u32` value shrinks to zero within 32 halvings, so the
32 units supplied by `integerSize` are never exhausted. -/
def integerSizeLoop : Nat → Nat → Nat
  | 0, _ => 0
  | fuel + 1, remaining =>
    if remaining ≥ 128 then integerSizeLoop fuel (remaining / 128) + 1 else 0

/-- `HpackDecoder::integer_size`: one byte if the value fits the prefix,
otherwise the prefix byte plus the continuation bytes. -/
def integerSize (value : Nat) (prefixBits : Nat) : Nat :=
  let prefixMax := 2 ^ prefixBits - 1
  if value < prefixMax then 1
  else (1 + integerSizeLoop 32 (value - prefixMax)) + 1

/-- An HPACK dynamic-table entry. -/
structure HpackEntry where
  name : List Nat
  value : List Nat
deriving DecidableEq, Repr

/-- The byte cost RFC 7541 assigns an entry: `32 + |name| + |value|`. -/
def entryByteSize (e : HpackEntry) : Nat :=
  32 + e.name.length + e.value.length

/-- `HpackDecoder`: the dynamic table (newest first, as in the source,
where insertion is at index 0), its cached byte size, and the
configured maximum. -/
structure HpackDecoder where
  dynamicTable : List HpackEntry
  dynamicTableSize : Nat
  maxDynamicTableSize : Nat
deriving DecidableEq, Repr

/-- `HpackDecoder::new(max_size)`. -/
def hpackDecoderNew (maxSize : Nat) : HpackDecoder :=
  { dynamicTable := [], dynamicTableSize := 0, maxDynamicTableSize := maxSize }

/-- The eviction `while` of `HpackDecoder::add_to_table`, run on the
REVERSED table (oldest entry first) so that popping the vector's last
element is structural: evict oldest entries while the new entry does not
fit; if the table empties first, report that the entry is not to be
inserted (the source's early `return`).  The `usize` subtraction cannot
underflow when the cached size is the sum of the entry sizes, which the
theorems below establish. -/
def evictOldest (es maxSz : Nat) :
    List HpackEntry → Nat → (List HpackEntry × Nat × Bool)
  | [], sz => if sz + es > maxSz then ([], sz, false) else ([], sz, true)
  | e :: rest, sz =>
    if sz + es > maxSz then evictOldest es maxSz rest (sz - entryByteSize e)
    else (e :: rest, sz, true)

/-- `HpackDecoder::add_to_table`: evict until the entry fits, then
insert it at the front; if even the empty table cannot hold it, leave
the (emptied) table without inserting. -/
def addToTable (d : HpackDecoder) (name value : List Nat) : HpackDecoder :=
  let es := 32 + name.length + value.length
  match evictOldest es d.maxDynamicTableSize d.dynamicTable.reverse
      d.dynamicTableSize with
  | (revRest, sz, doInsert) =>
    if doInsert then
      { dynamicTable := ⟨name, value⟩ :: revRest.reverse,
        dynamicTableSize := sz + es,
        maxDynamicTableSize := d.maxDynamicTableSize }
    else
      { dynamicTable := revRest.reverse,
        dynamicTableSize := sz,
        maxDynamicTableSize := d.maxDynamicTableSize }

/-- The actual byte size of a dynamic table: the sum of its entries'
costs (the quantity the claims bound; `dynamicTableSize` is the source's
cached copy of it). -/
def tableByteSize (t : List HpackEntry) : Nat :=
  (t.map entryByteSize).sum

/-- A sequence of insertions applied to a fresh decoder with the given
byte budget (each `decode` of a literal-with-incremental-indexing field
performs one `add_to_table`). -/
def hpackRun (maxSize : Nat) (ops : List (List Nat × List Nat)) : HpackDecoder :=
  ops.foldl (fun d nv => addToTable d nv.1 nv.2) (hpackDecoderNew maxSize)

/-! ## `server/mod.rs`: the flow controller

Windows are `i32`; `checked_add` fails outside `[-2^31, 2^31 - 1]`.
`update_connection_window` and `update_stream_window` store the sum and
then reject it when it is negative or exceeds `i32::MAX / 2`.  (On the
range-error path the source has already stored the out-of-range sum in
the struct; the claims concern only acceptance, which the
`Except` result captures.) -/

/-- Errors of `angelax_common::Error` reached here. -/
inductive ServerError where
  | flowControlError
  | tooManyStreams
deriving DecidableEq, Repr

/-- `i32::MAX` (`2^31 - 1`). -/
def i32Max : Int := 2147483647

/-- `i32::MIN` (`-2^31`). -/
def i32Min : Int := -2147483648

/-- `i32::checked_add`. -/
def i32CheckedAdd (a b : Int) : Option Int :=
  let s := a + b
  if s < i32Min ∨ i32Max < s then none else some s

/-- `FlowController::update_connection_window`, as a function of the
current window: the new window on success. -/
def updateConnectionWindow (window delta : Int) : Except ServerError Int :=
  match i32CheckedAdd window delta with
  | none => .error .flowControlError
  | some w =>
    if w < 0 ∨ w > i32Max / 2 then .error .flowControlError
    else .ok w

/-- `FlowController`: the connection window, the initial window for
streams not yet tracked, and the per-stream windows. -/
structure FlowController where
  connectionWindow : Int
  initialStreamWindow : Int
  streamWindows : List (Nat × Int)
deriving DecidableEq, Repr

/-- `FlowController::new(initial_window)`. -/
def flowControllerNew (initialWindow : Int) : FlowController :=
  { connectionWindow := initialWindow,
    initialStreamWindow := initialWindow,
    streamWindows := [] }

/-- The window `entry(stream_id).or_insert(initial_stream_window)`
reads. -/
def streamWindowOf (fc : FlowController) (streamId : Nat) : Int :=
  (fc.streamWindows.lookup streamId).getD fc.initialStreamWindow

/-- Store a stream's window (the map update behind `or_insert` and the
assignment). -/
def setStreamWindow : List (Nat × Int) → Nat → Int → List (Nat × Int)
  | [], k, v => [(k, v)]
  | (k', v') :: rest, k, v =>
    if k' == k then (k, v) :: rest else (k', v') :: setStreamWindow rest k v

/-- `FlowController::update_stream_window`. -/
def updateStreamWindow (fc : FlowController) (streamId : Nat) (delta : Int) :
    Except ServerError FlowController :=
  match i32CheckedAdd (streamWindowOf fc streamId) delta with
  | none => .error .flowControlError
  | some w =>
    if w < 0 ∨ w > i32Max / 2 then .error .flowControlError
    else .ok { fc with streamWindows := setStreamWindow fc.streamWindows streamId w }

/-! ## `utils/atomic.rs` and `utils/pool.rs`: bitmap and pools

Sequential semantics: a compare-exchange against the value just loaded
succeeds and a compare-exchange against a stale value fails and reloads.
Under these semantics the inner `while` of `find_and_set` alternates a
successful CAS (setting bit `trailing_ones(current)` of the word, which
the stale `current` does not yet record when the index was out of
range) with a failed CAS that resynchronises `current`; one modelled
step below performs that pair, so each step sets exactly one more bit of
the word.  A 64-bit word gains at most 64 bits, so 65 units of fuel are
never exhausted. -/

/-- `u64::MAX`. -/
def u64Max : Nat := 2 ^ 64 - 1

/-- The bit recursion behind `u64::trailing_ones`: count low one-bits,
examining at most `fuel` bit positions. -/
def trailingOnesAux : Nat → Nat → Nat
  | 0, _ => 0
  | fuel + 1, w =>
    if w % 2 = 1 then trailingOnesAux fuel (w / 2) + 1 else 0

/-- `u64::trailing_ones`: a `u64` has 64 bit positions. -/
def trailingOnes (w : Nat) : Nat :=
  trailingOnesAux 64 w

/-- `AtomicBitmap`: the 64-bit words and the bit count they cover. -/
structure AtomicBitmap where
  words : List Nat
  size : Nat
deriving DecidableEq, Repr

/-- `AtomicBitmap::new`: `⌈size / 64⌉` words, all zero. -/
def bitmapNew (size : Nat) : AtomicBitmap :=
  ⟨List.replicate ((size + 63) / 64) 0, size⟩

/-- `AtomicBitmap::set` (the boolean result, unused by the pool, is
dropped). -/
def bitmapSet (bm : AtomicBitmap) (index : Nat) : AtomicBitmap :=
  if index ≥ bm.size then bm
  else
    { bm with
      words := bm.words.set (index / 64)
        ((bm.words.getD (index / 64) 0) ||| 2 ^ (index % 64)) }

/-- `AtomicBitmap::clear`: `fetch_and` with the complemented mask
(complement within 64 bits). -/
def bitmapClear (bm : AtomicBitmap) (index : Nat) : AtomicBitmap :=
  if index ≥ bm.size then bm
  else
    { bm with
      words := bm.words.set (index / 64)
        ((bm.words.getD (index / 64) 0) &&& (u64Max - 2 ^ (index % 64))) }

/-- One word of `find_and_set`: repeatedly set the lowest clear bit; on
an in-range index return it, otherwise keep going until the word is
full. -/
def findAndSetWord (wordIdx size : Nat) : Nat → Nat → Option Nat × Nat
  | 0, w => (none, w)
  | fuel + 1, w =>
    if w == u64Max then (none, w)
    else
      let bitIdx := trailingOnes w
      let w' := w ||| 2 ^ bitIdx
      if wordIdx * 64 + bitIdx < size then (some (wordIdx * 64 + bitIdx), w')
      else findAndSetWord wordIdx size fuel w'

/-- The word iteration of `find_and_set`. -/
def findAndSetLoop (size : Nat) : List Nat → Nat → Option Nat × List Nat
  | [], _ => (none, [])
  | w :: rest, wordIdx =>
    match findAndSetWord wordIdx size 65 w with
    | (some idx, w') => (some idx, w' :: rest)
    | (none, w') =>
      let (res, rest') := findAndSetLoop size rest (wordIdx + 1)
      (res, w' :: rest')

/-- `AtomicBitmap::find_and_set`: the reserved index, if any, and the
updated bitmap. -/
def bitmapFindAndSet (bm : AtomicBitmap) : Option Nat × AtomicBitmap :=
  match findAndSetLoop bm.size bm.words 0 with
  | (res, words) => (res, { bm with words })

/-- Number of set bits in one word (`u64::count_ones`; 64 bit
positions). -/
def bitCountAux : Nat → Nat → Nat
  | 0, _ => 0
  | fuel + 1, w => w % 2 + bitCountAux fuel (w / 2)

/-- Number of set bits in one 64-bit word. -/
def bitCount (w : Nat) : Nat :=
  bitCountAux 64 w

/-- Number of set bits in the whole bitmap. -/
def bitmapSetBitCount (bm : AtomicBitmap) : Nat :=
  (bm.words.map bitCount).sum

/-- `ObjectPool`: the slots, the bitmap, and the factory (metrics
counters are not modelled). -/
structure ObjectPool (α : Type) where
  objects : List α
  available : AtomicBitmap
  factory : Unit → α

/-- `ObjectPool::new(capacity, factory)`: one factory-made object per
slot, and `available.set(i)` for every `i` below the capacity. -/
def objectPoolNew {α : Type} (capacity : Nat) (factory : Unit → α) :
    ObjectPool α :=
  { objects := (List.range capacity).map fun _ => factory (),
    available := (List.range capacity).foldl bitmapSet (bitmapNew capacity),
    factory }

/-- A `PooledObject`: the held value and the slot index
(`usize::MAX` marks a fallback object that never returns to the
pool). -/
structure PooledObject (α : Type) where
  value : α
  index : Nat

/-- `usize::MAX` on a 64-bit target. -/
def usizeMax : Nat := 2 ^ 64 - 1

/-- `ObjectPool::get`: reserve a slot through `find_and_set` and hand
out its object, or fail. -/
def objectPoolGet {α : Type} (p : ObjectPool α) :
    Option (PooledObject α) × ObjectPool α :=
  match bitmapFindAndSet p.available with
  | (some index, bm) =>
    (some ⟨p.objects.getD index (p.factory ()), index⟩,
     { p with available := bm })
  | (none, bm) => (none, { p with available := bm })

/-- `ObjectPool::get_or_create`: fall back to a fresh, untracked object
when `get` fails. -/
def objectPoolGetOrCreate {α : Type} (p : ObjectPool α) :
    PooledObject α × ObjectPool α :=
  match objectPoolGet p with
  | (some h, p') => (h, p')
  | (none, p') => (⟨p.factory (), usizeMax⟩, p')

/-- A byte buffer abstracted to its capacity and length
(`Vec::with_capacity(n)` is `⟨n, 0⟩`; the tier reset `|v| v.clear()`
zeroes the length and keeps the capacity). -/
structure Buf where
  cap : Nat
  len : Nat
deriving DecidableEq, Repr

/-- `BufferPool`: the three tiers. -/
structure BufferPool where
  smallPool : ObjectPool Buf
  mediumPool : ObjectPool Buf
  largePool : ObjectPool Buf

/-- `BufferPool::new()`: 4 KiB × 256, 64 KiB × 64, 1 MiB × 16. -/
def bufferPoolNew : BufferPool :=
  { smallPool := objectPoolNew 256 fun _ => ⟨4096, 0⟩,
    mediumPool := objectPoolNew 64 fun _ => ⟨65536, 0⟩,
    largePool := objectPoolNew 16 fun _ => ⟨1048576, 0⟩ }

/-- The tier `BufferPool::get` routes a request to (the `if` chain of
the source). -/
inductive BufTier where
  | small | medium | large
deriving DecidableEq, Repr

/-- The routing decision of `BufferPool::get(min_size)`. -/
def bufferPoolTier (minSize : Nat) : BufTier :=
  if minSize ≤ 4096 then .small
  else if minSize ≤ 65536 then .medium
  else .large

/-- `BufferPool::get(min_size)`. -/
def bufferPoolGet (bp : BufferPool) (minSize : Nat) :
    PooledObject Buf × BufferPool :=
  if minSize ≤ 4096 then
    match objectPoolGetOrCreate bp.smallPool with
    | (h, p) => (h, { bp with smallPool := p })
  else if minSize ≤ 65536 then
    match objectPoolGetOrCreate bp.mediumPool with
    | (h, p) => (h, { bp with mediumPool := p })
  else
    match objectPoolGetOrCreate bp.largePool with
    | (h, p) => (h, { bp with largePool := p })

/-! ## Concrete inputs used by the claims -/

/-- An HTTP/1.1 request with no `Connection` header (18 bytes). -/
def c1Input : List Nat := asciiBytes "GET / HTTP/1.1\r\n\r\n"

/-- A chunked POST: one 5-byte chunk, the final chunk, no trailers
(63 bytes: 48 bytes of request line and headers, 15 bytes of chunk
framing of which 5 are payload). -/
def c3Input : List Nat :=
  asciiBytes "POST /u HTTP/1.1\r\nTransfer-Encoding: chunked\r\n\r\n5\r\nHello\r\n0\r\n\r\n"

/-- A request declaring a 2 MiB body (2,097,152 ≤ 10 MiB). -/
def c5Input : List Nat :=
  asciiBytes "GET / HTTP/1.1\r\nContent-Length: 2097152\r\n\r\n"

/-- The simple-GET scenario input of the specification (47 bytes). -/
def c9Input : List Nat :=
  asciiBytes "GET /index.html HTTP/1.1\r\nHost: example.com\r\n\r\n"

/-! ## The claims -/

/-- Claim C1 (code evaluation at the failing input).  The claim states
that an HTTP/1.1 request with no `Connection` header leaves keep-alive
true.  In the source, `Connection::process_http1` computes the flag as
"some header is `Connection: keep-alive`", ignoring the version: the
18-byte request `GET / HTTP/1.1\r\n\r\n` parses as HTTP/1.1 with no
headers, and the computed keep-alive flag is `false`. -/
theorem claim_C1_keepalive_false_without_header :
    parseRequest http1ParserNew c1Input =
      .ok (⟨.get, asciiBytes "/", ⟨1, 1⟩, [], none⟩, 18) ∧
    keepAliveAfter ⟨.get, asciiBytes "/", ⟨1, 1⟩, [], none⟩ = false :=
  ⟨rfl, rfl⟩

set_option maxRecDepth 200000 in
/-- Claim C2 (code evaluation at the failing input).  The claim states
that a fresh pool has zero set bits (matching zero live handles) and
that `get()` succeeds capacity-many times.  In the source,
`ObjectPool::new` SETS one bit per slot while `find_and_set` reserves a
slot by setting a CLEAR bit: a fresh pool of capacity 3 has 3 set bits
with no live handle in existence, and its very first `get()` returns
`None`. -/
theorem claim_C2_fresh_pool_bits_set_and_get_fails :
    bitmapSetBitCount (objectPoolNew 3 (fun _ => ())).available = 3 ∧
    (objectPoolGet (objectPoolNew 3 (fun _ => ()))).1 = none := by
  constructor
  · decide
  · rfl

/-- Claim C3 (code evaluation at the failing input).  The claim states
that the consumed count equals the offset of the first byte past the
request, including the chunk framing.  In the source,
`parse_request` advances the offset by `body.len()` — the DECODED chunk
payload length — so the 63-byte chunked request below reports only 53
bytes consumed (48 bytes of request line and headers plus the 5 payload
bytes), leaving the 10 framing bytes unaccounted for. -/
theorem claim_C3_chunked_consumed_is_decoded_length :
    parseRequest http1ParserNew c3Input =
      .ok (⟨.post, asciiBytes "/u", ⟨1, 1⟩,
            [⟨asciiBytes "Transfer-Encoding", asciiBytes "chunked"⟩],
            some (asciiBytes "Hello")⟩, 53) ∧
    c3Input.length = 63 :=
  ⟨rfl, rfl⟩

/-- Claim C4, counterexample.  The bytes `0x1F 0xE1 0x03` with a 5-bit
prefix decode to `31 + 0x61 + 0x03·128 = 512`, not 1337 (the canonical
encoding of 1337 is `0x1F 0x9A 0x0A`). -/
theorem claim_C4_counterexample :
    decodeInteger [0x1F, 0xE1, 0x03] 5 = .ok 512 ∧ (512 : Nat) ≠ 1337 :=
  ⟨rfl, by decide⟩

/-- Claim C4 as amended: HPACK integer decoding with a 5-bit prefix
applied to `0x1F 0xE1 0x03` returns 512, and the encoding of 1337 with
a 5-bit prefix occupies exactly 3 bytes. -/
theorem claim_C4_amended :
    decodeInteger [0x1F, 0xE1, 0x03] 5 = .ok 512 ∧ integerSize 1337 5 = 3 :=
  ⟨rfl, rfl⟩

/-- Claim C5, counterexample.  A decimal `Content-Length` of 2 MiB is
at most 10 MiB, yet the parser (whose `new()` sets
`max_request_size = 1024 * 1024`) rejects it with `RequestTooLarge`. -/
theorem claim_C5_counterexample :
    parseRequest http1ParserNew c5Input = .error .requestTooLarge ∧
    (2097152 : Nat) ≤ 10 * 1024 * 1024 :=
  ⟨rfl, by decide⟩

/-- Claim C5 as amended (the parser's actual default limit is
`1024 * 1024` bytes = 1 MiB, not 10 MiB): a request whose
`Content-Length` header parses as a decimal value `n` is rejected with
`RequestTooLarge` exactly when `n` exceeds 1 MiB; `n` of at most 1 MiB
is accepted, yielding the body, or `IncompleteRequest` when fewer bytes
than `n` remain; a non-decimal value yields `InvalidContentLength`. -/
theorem claim_C5_amended (v remaining : List Nat) :
    (∀ n : Nat, parseUsizeDec v = some n →
      extractBody http1ParserNew [⟨asciiBytes "Content-Length", v⟩] remaining =
        if 1024 * 1024 < n then .error .requestTooLarge
        else if remaining.length < n then .error .incompleteRequest
        else .ok (some (remaining.take n))) ∧
    (parseUsizeDec v = none →
      extractBody http1ParserNew [⟨asciiBytes "Content-Length", v⟩] remaining =
        .error .invalidContentLength) := by
  have h0 : extractBody http1ParserNew [⟨asciiBytes "Content-Length", v⟩] remaining
      = (match parseUsizeDec v with
         | none => .error .invalidContentLength
         | some length =>
           if length > http1ParserNew.maxRequestSize then .error .requestTooLarge
           else if remaining.length < length then .error .incompleteRequest
           else .ok (some (remaining.take length))) := rfl
  constructor
  · intro n hn
    rw [h0, hn]
    rfl
  · intro hn
    rw [h0, hn]

/-- Witness for C5: a `Content-Length` of `2097152` (2 MiB, above the
1 MiB limit) with no remaining input is rejected with
`RequestTooLarge`. -/
theorem claim_C5_witness :
    extractBody http1ParserNew
      [⟨asciiBytes "Content-Length", asciiBytes "2097152"⟩] [] =
      .error .requestTooLarge := by
  have h := (claim_C5_amended (asciiBytes "2097152") []).1 2097152 (by rfl)
  rw [h]
  rfl

/-- Claim C6 (code evaluation at the failing input).  The claim states
the AVX2 and scalar implementations agree on every byte slice.  The
AVX2 body of `is_valid_token` checks full 32-byte blocks only against
the printable range `0x21..=0x7E` (its separator check is an unresolved
`TODO`), so 32 colon bytes — `:` is not a token character — are
accepted by the AVX2 body and rejected by the scalar body. -/
theorem claim_C6_avx_and_scalar_disagree :
    isValidTokenAvx (List.replicate 32 58) = true ∧
    isValidTokenScalar (List.replicate 32 58) = false := by
  constructor
  · decide
  · decide

/-- `update_connection_window` as a decision tree: `checked_add`
failure first, then the negative / above-`i32::MAX / 2` test. -/
theorem updateConnectionWindow_ifs (w delta : Int) :
    updateConnectionWindow w delta =
      if w + delta < i32Min ∨ i32Max < w + delta then .error .flowControlError
      else if w + delta < 0 ∨ w + delta > i32Max / 2 then .error .flowControlError
      else .ok (w + delta) := by
  unfold updateConnectionWindow i32CheckedAdd
  by_cases hA : w + delta < i32Min ∨ i32Max < w + delta
  · rw [if_pos hA, if_pos hA]
  · rw [if_neg hA, if_neg hA]

/-- `update_stream_window` as the same decision tree over the stream's
current window. -/
theorem updateStreamWindow_ifs (fc : FlowController) (sid : Nat) (delta : Int) :
    updateStreamWindow fc sid delta =
      if streamWindowOf fc sid + delta < i32Min ∨
          i32Max < streamWindowOf fc sid + delta then
        .error .flowControlError
      else if streamWindowOf fc sid + delta < 0 ∨
          streamWindowOf fc sid + delta > i32Max / 2 then
        .error .flowControlError
      else
        .ok { fc with streamWindows :=
                setStreamWindow fc.streamWindows sid (streamWindowOf fc sid + delta) } := by
  unfold updateStreamWindow i32CheckedAdd
  by_cases hA : streamWindowOf fc sid + delta < i32Min ∨
      i32Max < streamWindowOf fc sid + delta
  · rw [if_pos hA, if_pos hA]
  · rw [if_neg hA, if_neg hA]

/-- Claim C7, counterexample.  A `WINDOW_UPDATE` delta that raises the
connection window from its initial 65,535 to exactly `2^30` — a value
the claim says must be accepted, being at most `2^31 - 1` — is rejected
as a flow-control error. -/
theorem claim_C7_counterexample :
    updateConnectionWindow 65535 (2 ^ 30 - 65535) = .error .flowControlError ∧
    (65535 : Int) + (2 ^ 30 - 65535) = 2 ^ 30 ∧
    ((2 : Int) ^ 30) ≤ 2 ^ 31 - 1 := by
  refine ⟨by rfl, by norm_num, by norm_num⟩

/-- Claim C7 as amended: a window-update delta is accepted exactly when
the resulting window lies in `[0, 2^30 - 1]` (the source checks
`i32::MAX / 2`, i.e. `2^30 - 1`, not `2^31 - 1`); otherwise — `i32`
overflow, a negative result, or a result above `2^30 - 1` — it is
rejected as a flow-control error.  This characterises both the
connection-level and the stream-level update. -/
theorem claim_C7_amended (w delta : Int) (fc : FlowController) (sid : Nat) :
    (updateConnectionWindow w delta =
      if 0 ≤ w + delta ∧ w + delta ≤ 2 ^ 30 - 1 then .ok (w + delta)
      else .error .flowControlError) ∧
    (updateStreamWindow fc sid delta =
      if 0 ≤ streamWindowOf fc sid + delta ∧
          streamWindowOf fc sid + delta ≤ 2 ^ 30 - 1 then
        .ok { fc with streamWindows :=
                setStreamWindow fc.streamWindows sid (streamWindowOf fc sid + delta) }
      else .error .flowControlError) := by
  have hp30 : ((2 : Int) ^ 30 - 1) = 1073741823 := by norm_num
  constructor
  · rw [hp30, updateConnectionWindow_ifs]
    simp only [i32Min, i32Max]
    split_ifs <;> first | rfl | (exfalso; omega)
  · rw [hp30, updateStreamWindow_ifs]
    simp only [i32Min, i32Max]
    split_ifs <;> first | rfl | (exfalso; omega)

/-- Claim C9, counterexample.  Parsing the simple-GET scenario input
succeeds, but the input is 47 bytes long and the consumed count is 47,
not the 38 stated by the claim. -/
theorem claim_C9_counterexample :
    (parseRequest http1ParserNew c9Input).map Prod.snd = .ok 47 ∧
    c9Input.length = 47 ∧ (47 : Nat) ≠ 38 :=
  ⟨rfl, rfl, by decide⟩

/-- Claim C9 as amended: parsing the 47-byte input
`GET /index.html HTTP/1.1\r\nHost: example.com\r\n\r\n` succeeds and
returns method GET, target `/index.html`, version 1.1, exactly the one
header `("Host", "example.com")`, no body, and 47 bytes consumed. -/
theorem claim_C9_amended :
    parseRequest http1ParserNew c9Input =
      .ok (⟨.get, asciiBytes "/index.html", ⟨1, 1⟩,
            [⟨asciiBytes "Host", asciiBytes "example.com"⟩], none⟩, 47) ∧
    c9Input.length = 47 :=
  ⟨rfl, rfl⟩

/-! ### The HPACK dynamic-table invariant (claim C8) -/

/-- The decoder invariant: the cached `dynamic_table_size` equals the
sum of the entry costs, and that sum is within the budget. -/
def hpackWf (d : HpackDecoder) : Prop :=
  d.dynamicTableSize = tableByteSize d.dynamicTable ∧
  tableByteSize d.dynamicTable ≤ d.maxDynamicTableSize

/-- Reversing a table does not change its byte size. -/
theorem tableByteSize_reverse (l : List HpackEntry) :
    tableByteSize l.reverse = tableByteSize l := by
  simp [tableByteSize, List.sum_reverse]

/-- Byte size of a table with one more entry. -/
theorem tableByteSize_cons (e : HpackEntry) (l : List HpackEntry) :
    tableByteSize (e :: l) = entryByteSize e + tableByteSize l := by
  simp [tableByteSize]

/-- What the eviction loop guarantees when its size argument is the
byte size of the (reversed) table it walks: the returned size is again
the byte size of the returned table; if it reports the entry insertable
the entry fits the budget; if not, it has emptied the table and even
the empty table cannot hold the entry; and it only ever removes
entries from the front of the reversed table (the oldest end). -/
theorem evictOldest_spec (es maxSz : Nat) :
    ∀ (rt : List HpackEntry) (sz : Nat), sz = tableByteSize rt →
      ((evictOldest es maxSz rt sz).2.1 =
        tableByteSize (evictOldest es maxSz rt sz).1) ∧
      ((evictOldest es maxSz rt sz).2.2 = true →
        (evictOldest es maxSz rt sz).2.1 + es ≤ maxSz) ∧
      ((evictOldest es maxSz rt sz).2.2 = false →
        (evictOldest es maxSz rt sz).1 = []) ∧
      ((evictOldest es maxSz rt sz).1 <:+ rt) ∧
      ((evictOldest es maxSz rt sz).2.2 = false → maxSz < es) := by
  intro rt
  induction rt with
  | nil =>
    intro sz hsz
    have h0 : sz = 0 := by simpa [tableByteSize] using hsz
    subst h0
    simp only [evictOldest]
    split_ifs with h
    · refine ⟨?_, ?_, ?_, ?_, ?_⟩ <;> dsimp only
      · simp [tableByteSize]
      · simp
      · intro _; rfl
      · exact List.suffix_refl _
      · intro _; omega
    · refine ⟨?_, ?_, ?_, ?_, ?_⟩ <;> dsimp only
      · simp [tableByteSize]
      · intro _; omega
      · simp
      · exact List.suffix_refl _
      · simp
  | cons e rest ih =>
    intro sz hsz
    simp only [evictOldest]
    split_ifs with h
    · have hsz' : sz - entryByteSize e = tableByteSize rest := by
        rw [hsz, tableByteSize_cons]
        omega
      obtain ⟨h1, h2, h3, h4, h5⟩ := ih (sz - entryByteSize e) hsz'
      exact ⟨h1, h2, h3, h4.trans (List.suffix_cons e rest), h5⟩
    · refine ⟨?_, ?_, ?_, ?_, ?_⟩ <;> dsimp only
      · exact hsz
      · intro _; omega
      · simp
      · exact List.suffix_refl _
      · simp

/-- One `add_to_table` preserves the invariant and the budget, and
behaves as the specification describes: an entry larger than the whole
budget leaves an empty table without being inserted, and a fitting
entry ends up in front of a prefix of the previous (newest-first)
table — eviction only removed oldest entries. -/
theorem addToTable_spec (d : HpackDecoder) (n v : List Nat) (h : hpackWf d) :
    hpackWf (addToTable d n v) ∧
    (addToTable d n v).maxDynamicTableSize = d.maxDynamicTableSize ∧
    (d.maxDynamicTableSize < 32 + n.length + v.length →
      (addToTable d n v).dynamicTable = []) ∧
    (32 + n.length + v.length ≤ d.maxDynamicTableSize →
      ∃ t, (addToTable d n v).dynamicTable = ⟨n, v⟩ :: t ∧
        t <+: d.dynamicTable) := by
  obtain ⟨hcache, hle⟩ := h
  have hrev : d.dynamicTableSize = tableByteSize d.dynamicTable.reverse := by
    rw [tableByteSize_reverse]; exact hcache
  have hspec := evictOldest_spec (32 + n.length + v.length) d.maxDynamicTableSize
    d.dynamicTable.reverse d.dynamicTableSize hrev
  rcases hres : evictOldest (32 + n.length + v.length) d.maxDynamicTableSize
      d.dynamicTable.reverse d.dynamicTableSize with ⟨rt', sz', ins⟩
  rw [hres] at hspec
  dsimp only at hspec
  obtain ⟨h1, h2, h3, h4, h5⟩ := hspec
  simp only [addToTable]
  rw [hres]
  cases ins with
  | true =>
    simp only [if_true]
    have hfit := h2 rfl
    have hpre : rt'.reverse <+: d.dynamicTable := by
      have hh := List.reverse_prefix.mpr h4
      rwa [List.reverse_reverse] at hh
    refine ⟨⟨?_, ?_⟩, by trivial, ?_, ?_⟩
    · dsimp only
      rw [tableByteSize_cons, tableByteSize_reverse, ← h1]
      simp only [entryByteSize]
      omega
    · dsimp only
      rw [tableByteSize_cons, tableByteSize_reverse, ← h1]
      simp only [entryByteSize]
      omega
    · intro hbig
      exfalso
      omega
    · intro _
      exact ⟨rt'.reverse, rfl, hpre⟩
  | false =>
    simp only [Bool.false_eq_true, if_false]
    have hempty := h3 rfl
    have hbig := h5 rfl
    subst hempty
    have hsz0 : sz' = 0 := by simpa [tableByteSize] using h1
    refine ⟨⟨?_, ?_⟩, by trivial, fun _ => by simp, fun hfit => ?_⟩
    · dsimp only
      simpa [tableByteSize] using hsz0
    · dsimp only
      simp [tableByteSize]
    · exfalso
      omega

/-- Every decoder reachable by insertions from a fresh one satisfies
the invariant and keeps its configured budget. -/
theorem hpackRun_wf (maxSize : Nat) (ops : List (List Nat × List Nat)) :
    hpackWf (hpackRun maxSize ops) ∧
    (hpackRun maxSize ops).maxDynamicTableSize = maxSize := by
  unfold hpackRun
  suffices h : ∀ d : HpackDecoder, hpackWf d → d.maxDynamicTableSize = maxSize →
      hpackWf (ops.foldl (fun d nv => addToTable d nv.1 nv.2) d) ∧
      (ops.foldl (fun d nv => addToTable d nv.1 nv.2) d).maxDynamicTableSize
        = maxSize by
    refine h _ ⟨rfl, ?_⟩ rfl
    simp [hpackDecoderNew, tableByteSize]
  induction ops with
  | nil => intro d h1 h2; exact ⟨h1, h2⟩
  | cons nv rest ih =>
    intro d h1 h2
    simp only [List.foldl_cons]
    obtain ⟨hw, hm, _, _⟩ := addToTable_spec d nv.1 nv.2 h1
    exact ih _ hw (hm.trans h2)

/-- Claim C8: after any sequence of insertions into a fresh decoder the
dynamic table's total byte size (32 + |name| + |value| per entry) is at
most the configured maximum; an entry larger than the whole budget
empties the table and is not inserted; and an insertion that fits
(possibly after eviction) puts the new entry in front of a prefix of
the previous newest-first table, i.e. eviction removes oldest entries
only. -/
theorem claim_C8_dynamic_table_budget :
    (∀ (maxSize : Nat) (ops : List (List Nat × List Nat)),
      tableByteSize (hpackRun maxSize ops).dynamicTable ≤ maxSize) ∧
    (∀ (maxSize : Nat) (ops : List (List Nat × List Nat)) (name value : List Nat),
      maxSize < 32 + name.length + value.length →
      (addToTable (hpackRun maxSize ops) name value).dynamicTable = []) ∧
    (∀ (maxSize : Nat) (ops : List (List Nat × List Nat)) (name value : List Nat),
      32 + name.length + value.length ≤ maxSize →
      ∃ t, (addToTable (hpackRun maxSize ops) name value).dynamicTable =
          ⟨name, value⟩ :: t ∧
        t <+: (hpackRun maxSize ops).dynamicTable) := by
  refine ⟨?_, ?_, ?_⟩
  · intro maxSize ops
    obtain ⟨⟨_, hle⟩, hm⟩ := hpackRun_wf maxSize ops
    rwa [hm] at hle
  · intro maxSize ops name value hbig
    obtain ⟨hw, hm⟩ := hpackRun_wf maxSize ops
    exact (addToTable_spec _ name value hw).2.2.1 (by rwa [hm])
  · intro maxSize ops name value hfit
    obtain ⟨hw, hm⟩ := hpackRun_wf maxSize ops
    exact (addToTable_spec _ name value hw).2.2.2 (by rwa [hm])

/-- Witness for C8: with a budget of 10 bytes, inserting the 33-byte
entry `("a", "")` into a fresh decoder leaves an empty table; with a
budget of 100 bytes it is inserted in front of (a prefix of) the empty
table. -/
theorem claim_C8_witness :
    (addToTable (hpackRun 10 []) (asciiBytes "a") []).dynamicTable = [] ∧
    (∃ t, (addToTable (hpackRun 100 []) (asciiBytes "a") []).dynamicTable =
        ⟨asciiBytes "a", []⟩ :: t ∧ t <+: (hpackRun 100 []).dynamicTable) :=
  ⟨claim_C8_dynamic_table_budget.2.1 10 [] (asciiBytes "a") [] (by decide),
   claim_C8_dynamic_table_budget.2.2 100 [] (asciiBytes "a") [] (by decide)⟩

set_option maxRecDepth 400000 in
/-- Claim C10: `BufferPool::get` is total, and every request for more
than 1,048,576 bytes is routed to the 1 MiB tier (there is no larger
tier), receiving a buffer whose initial capacity is exactly 1,048,576 —
smaller than the requested minimum. -/
theorem claim_C10_oversized_request_routed_to_1MiB_tier
    (minSize : Nat) (h : 1048576 < minSize) :
    bufferPoolTier minSize = .large ∧
    ((bufferPoolGet bufferPoolNew minSize).1).value.cap = 1048576 ∧
    ((bufferPoolGet bufferPoolNew minSize).1).value.cap < minSize := by
  have h1 : ¬ minSize ≤ 4096 := by omega
  have h2 : ¬ minSize ≤ 65536 := by omega
  have htier : bufferPoolTier minSize = .large := by
    unfold bufferPoolTier
    rw [if_neg h1, if_neg h2]
  have hcap : ((bufferPoolGet bufferPoolNew minSize).1).value.cap = 1048576 := by
    unfold bufferPoolGet
    rw [if_neg h1, if_neg h2]
    rfl
  refine ⟨htier, hcap, ?_⟩
  rw [hcap]
  omega

/-- Witness for C10: a request for 2,000,000 bytes goes to the 1 MiB
tier and receives a 1,048,576-byte buffer. -/
theorem claim_C10_witness :
    bufferPoolTier 2000000 = .large ∧
    ((bufferPoolGet bufferPoolNew 2000000).1).value.cap = 1048576 ∧
    ((bufferPoolGet bufferPoolNew 2000000).1).value.cap < 2000000 :=
  claim_C10_oversized_request_routed_to_1MiB_tier 2000000 (by decide)

end Angelax
